import Mathlib

/-!
Verification development for the WebRestorer content script (src/main.js).

The script walks a live DOM, classifies elements against style-based
"annoyance" predicates (scroll lock, blur, transparency, stacking), and
either overrides style properties with `!important` inline declarations or
detaches subtrees.  This file gives a shallow embedding of the DOM state the
script manipulates and of every function in the script that the claims
touch, and proves the claims over that embedding.

Modelling conventions:
- A DOM is a finite association list of node ids to node records.  Ids play
  the role of object identity (`==` comparisons of element objects in the
  script compare ids here).
- `getComputedStyle` objects are live in the browser: each property access
  reflects the style at that moment.  Correspondingly, every handler here
  reads the style fields out of the current DOM value at the point of the
  call; an inline `!important` override installed by the engine wins over
  the base computed value, so the resolved value of a property is the
  override when present, the base value otherwise.
- `document.documentElement` and `document.body` are the fixed ids `htmlId`
  and `bodyId`.
- Recursions that walk parent links or child lists are fuelled; the wrappers
  use `domBound`, which strictly exceeds every node id, so on well-formed
  (acyclic, in particular depth-monotonically numbered) documents the fuel
  never runs out.  On a cyclic heap the script itself would not terminate.
-/

namespace WebRestorer

/-- One DOM element node: the `tagName` (uppercase), whether the node is an
`HTMLElement`, the base computed values of the five style properties the
script reads, the inline `!important` overrides the script can install with
`style.setProperty` (when present, an override is what `getComputedStyle`
reports), the `parentElement` link (`none` for detached nodes and for nodes
attached directly under a shadow root), the child list, and the children of
the attached shadow root (`[]` when the node has no shadow root; iterating
an absent shadow root and an empty one are indistinguishable).  The script
never sets an inline `z-index`, so no override field exists for it. -/
structure NodeData where
  tag : String
  isHTML : Bool := true
  overflow : String := "visible"
  position : String := "static"
  filter : String := "none"
  bgcolor : String := "rgba(0, 0, 0, 0)"
  zindex : String := "auto"
  ovOverflow : Option String := none
  ovPosition : Option String := none
  ovFilter : Option String := none
  ovBgcolor : Option String := none
  parent : Option Nat := none
  children : List Nat := []
  shadow : List Nat := []
deriving DecidableEq

/-- A document: association list from node id to node record. -/
abbrev Dom := List (Nat × NodeData)

/-- `document.documentElement`. -/
def htmlId : Nat := 0

/-- `document.body`. -/
def bodyId : Nat := 1

/-- Look a node up by id (first binding wins). -/
def getNode : Dom → Nat → Option NodeData
  | [], _ => none
  | (i, nd) :: rest, id => if i = id then some nd else getNode rest id

/-- Rewrite the record stored under an id, leaving everything else alone. -/
def updateNode : Dom → Nat → (NodeData → NodeData) → Dom
  | [], _, _ => []
  | (i, nd) :: rest, id, f =>
    (i, if i = id then f nd else nd) :: updateNode rest id f

/-- A number strictly larger than every node id; enough fuel for any walk
along distinct nodes. -/
def domBound (dom : Dom) : Nat :=
  dom.foldr (fun p m => max (p.1 + 1) m) 1

/-- Resolved `overflow` as `getComputedStyle` reports it. -/
def NodeData.resOverflow (nd : NodeData) : String := nd.ovOverflow.getD nd.overflow

/-- Resolved `position`. -/
def NodeData.resPosition (nd : NodeData) : String := nd.ovPosition.getD nd.position

/-- Resolved `filter`. -/
def NodeData.resFilter (nd : NodeData) : String := nd.ovFilter.getD nd.filter

/-- Resolved `background-color`. -/
def NodeData.resBgcolor (nd : NodeData) : String := nd.ovBgcolor.getD nd.bgcolor

/-- Resolved `z-index` (never overridden by the engine). -/
def NodeData.resZindex (nd : NodeData) : String := nd.zindex

/-! ### JavaScript string primitives used by the handlers -/

/-- `pat` occurs as a contiguous run inside `l` (JS `String.includes`). -/
def isInfixL (pat : List Char) : List Char → Bool
  | [] => pat.isEmpty
  | c :: rest => pat.isPrefixOf (c :: rest) || isInfixL pat rest

/-- JS `s.includes(sub)`. -/
def jsIncludes (s sub : String) : Bool := isInfixL sub.toList s.toList

/-- Replace the first occurrence of `pat` (non-empty here) by `rep`. -/
def replaceFirstL (pat rep : List Char) : List Char → List Char
  | [] => []
  | c :: rest =>
    if pat.isPrefixOf (c :: rest) then rep ++ (c :: rest).drop pat.length
    else c :: replaceFirstL pat rep rest

/-- JS `s.replace(pat, rep)` with a plain-string pattern: first occurrence
only. -/
def jsReplaceFirst (s pat rep : String) : String :=
  String.mk (replaceFirstL pat.toList rep.toList s.toList)

/-! ### The transparency regular expression

`/rgba\((?<R>\d+),\s*(?<G>\d+),\s*(?<B>\d+),\s*(?<A>\d|\d\.\d+)\)/i`

`String.prototype.match` with a non-global regexp scans for the leftmost
starting index at which the pattern matches.  The quantifiers here are
greedy, but none of them can trade characters with its successor (`\d+` is
always followed by a non-digit, `\s*` by a non-space requirement), so the
maximal-munch reading below is exact; the alternation `\d|\d\.\d+` tries the
single-digit branch first and falls back to the fractional branch, both
implemented literally. -/

/-- The four captured groups of a successful match. -/
structure RgbaGroups where
  R : String
  G : String
  B : String
  A : String
deriving DecidableEq

/-- Split a maximal run of ASCII digits off the front. -/
def takeDigits (l : List Char) : List Char × List Char :=
  (l.takeWhile Char.isDigit, l.dropWhile Char.isDigit)

/-- JS `\s` for the characters that can occur in a CSS color string. -/
def isJsSpace (c : Char) : Bool :=
  c = ' ' || c = '\t' || c = '\n' || c = '\r' || c = '\x0b' || c = '\x0c'

/-- Match `(?<A>\d|\d\.\d+)\)` at the head of the input, returning the `A`
group: a single digit followed by `)`, or (falling back, as the regexp
alternation does) digit, dot, one or more digits, then `)`. -/
def matchAlphaClose : List Char → Option String
  | [] => none
  | c :: rest =>
    if c.isDigit then
      match rest with
      | ')' :: _ => some (String.mk [c])
      | '.' :: rest2 =>
        let fr := rest2.takeWhile Char.isDigit
        if fr.isEmpty then none
        else
          match rest2.dropWhile Char.isDigit with
          | ')' :: _ => some (String.mk (c :: '.' :: fr))
          | _ => none
      | _ => none
    else none

/-- Try the whole pattern at this exact starting position (the `i` flag makes
the literal `rgba(` case-insensitive). -/
def matchRgbaAt (l : List Char) : Option RgbaGroups :=
  if ((l.take 5).map Char.toLower) = ['r', 'g', 'b', 'a', '('] then
    let rest0 := l.drop 5
    let (r, rest1) := takeDigits rest0
    if r.isEmpty then none else
    match rest1 with
    | ',' :: rest2 =>
      let (g, rest3) := takeDigits (rest2.dropWhile isJsSpace)
      if g.isEmpty then none else
      match rest3 with
      | ',' :: rest4 =>
        let (b, rest5) := takeDigits (rest4.dropWhile isJsSpace)
        if b.isEmpty then none else
        match rest5 with
        | ',' :: rest6 =>
          match matchAlphaClose (rest6.dropWhile isJsSpace) with
          | some a => some ⟨String.mk r, String.mk g, String.mk b, a⟩
          | none => none
        | _ => none
      | _ => none
    | _ => none
  else none

/-- Leftmost match of the transparency regexp anywhere in the string. -/
def searchRgba : List Char → Option RgbaGroups
  | [] => none
  | c :: rest =>
    match matchRgbaAt (c :: rest) with
    | some m => some m
    | none => searchRgba rest

/-- `Number(a) === 0` for a string `a` captured by the `A` group (a digit, or
digit `.` digits): zero exactly when every digit in it is `0`. -/
def numIsZero (a : String) : Bool :=
  a.toList.all fun c => c == '0' || c == '.'

/-! ### `special_elements`: the statically configured tag sets -/

namespace special_elements

/-- Tags excluded from transparency handling. -/
def excluded_for_transparency : List String :=
  ["A", "ABBR", "ACRONYM", "ADDRESS", "B", "BDI", "BDO", "BLOCKQUOTE",
   "BUTTON", "CAPTION", "CITE", "CODE", "COL", "COLGROUP",
   "DATA", "DD", "DEL", "DETAILS", "DFN", "DL", "DT", "EM", "FIELDSET",
   "FIGCAPTION", "FIGURE", "FORM", "H1", "H2", "H3", "H4",
   "HGROUP", "HR", "I", "INPUT", "INS", "KBD", "LABEL", "LEGEND", "LI",
   "MARK", "METER", "OL", "OPTGROUP", "OPTION", "OUTPUT",
   "P", "PRE", "PROGRESS", "Q", "RB", "RP", "RT", "RTC", "RUBY", "S",
   "SAMP", "SEARCH", "SELECT", "SMALL", "SPAN", "STRONG",
   "SUB", "SUMMARY", "SUP", "TABLE", "TBODY", "TD", "TEXTAREA", "TFOOT",
   "TH", "THEAD", "TIME", "TR", "TT", "U", "UL", "VAR"]

/-- Tags excluded from z-index (stacking) handling. -/
def excluded_for_z_index : List String :=
  ["A", "ARTICLE", "ASIDE", "BUTTON", "CANVAS", "FOOTER", "FORM", "FRAME",
   "FRAMESET", "H1", "H2", "H3", "H4", "HEADER", "IFRAME", "MAIN", "NAV",
   "P", "SPAN"]

/-- Ancestor tags that veto a stacking removal. -/
def ancestors_for_z_index : List String :=
  ["A", "ARTICLE", "ASIDE", "BUTTON", "CANVAS", "FOOTER", "FORM", "FRAME",
   "FRAMESET", "H1", "H2", "H3", "H4", "HEADER", "IFRAME", "MAIN", "NAV",
   "P", "SPAN"]

/-- Landmark descendant tags that veto a stacking removal. -/
def descendants_for_z_index : List String :=
  ["HEADER", "MAIN", "ARTICLE", "ASIDE", "NAV", "FOOTER"]

end special_elements

/-- Tags that can never be part of an element-based annoyance: excluded from
all handling, and their subtrees are skipped by every walker. -/
def excluded_elements : List String :=
  ["ABBR", "ACRONYM", "ADDRESS", "AREA", "AUDIO", "B", "BDI", "BDO", "BIG",
   "BLOCKQUOTE", "BR", "CAPTION",
   "CENTER", "CITE", "CODE", "COL", "COLGROUP", "DATA", "DATALIST", "DD",
   "DEL", "DETAILS", "DFN", "DL",
   "DT", "EM", "FIELDSET", "FIGCAPTION", "FIGURE", "FONT", "FORM", "HEAD",
   "HR", "I", "IMG", "INPUT", "INS",
   "KBD", "LABEL", "LEGEND", "LI", "LINK", "MAP", "MARK", "MARQUEE", "MENU",
   "MENUITEM", "META", "METER",
   "NOBR", "NOSCRIPT", "OL", "OPTGROUP", "OPTION", "OUTPUT", "P", "PARAM",
   "PICTURE", "PLAINTEXT", "PRE",
   "PROGRESS", "Q", "RB", "RP", "RT", "RTC", "RUBY", "S", "SAMP", "SCRIPT",
   "SEARCH", "SELECT", "SMALL",
   "SOURCE", "STRIKE", "STRONG", "STYLE", "SUB", "SUMMARY", "SUP", "TABLE",
   "TBODY", "TD", "TEXTAREA",
   "TFOOT", "TH", "THEAD", "TIME", "TITLE", "TR", "TRACK", "TT", "U", "UL",
   "VAR", "VIDEO", "WBR", "XMP"]

/-! ### Style setters: `element.style.setProperty(prop, v, 'important')` -/

/-- Install an `!important` inline `overflow`. -/
def setOverflowImp (dom : Dom) (id : Nat) (v : String) : Dom :=
  updateNode dom id fun nd => { nd with ovOverflow := some v }

/-- Install an `!important` inline `position`. -/
def setPositionImp (dom : Dom) (id : Nat) (v : String) : Dom :=
  updateNode dom id fun nd => { nd with ovPosition := some v }

/-- Install an `!important` inline `filter`. -/
def setFilterImp (dom : Dom) (id : Nat) (v : String) : Dom :=
  updateNode dom id fun nd => { nd with ovFilter := some v }

/-- Install an `!important` inline `background-color`. -/
def setBgcolorImp (dom : Dom) (id : Nat) (v : String) : Dom :=
  updateNode dom id fun nd => { nd with ovBgcolor := some v }

/-! ### Removal -/

/-- The ancestor walk behind `body.contains(element)`: `contains` is
inclusive, and climbs `parent` links; shadow-root children have no
`parent` link, so shadow subtrees are never contained in `body`. -/
def containsWalk (dom : Dom) : Nat → Nat → Bool
  | 0, _ => false
  | fuel + 1, id =>
    if id = bodyId then true
    else
      match getNode dom id with
      | none => false
      | some nd =>
        match nd.parent with
        | none => false
        | some p => containsWalk dom fuel p

/-- `body.contains(element)`. -/
def bodyContains (dom : Dom) (id : Nat) : Bool :=
  containsWalk dom (domBound dom) id

/-- `element.remove()`: unlink the node from its parent, if it has one. -/
def detachFromParent (dom : Dom) (id : Nat) : Dom :=
  match getNode dom id with
  | none => dom
  | some nd =>
    match nd.parent with
    | none => dom
    | some p =>
      updateNode
        (updateNode dom p fun pd =>
          { pd with children := pd.children.filter fun c => c ≠ id })
        id fun d => { d with parent := none }

/-- `remove_element(element)`: safe removal — detach only when the node is
still under `body`. -/
def remove_element (dom : Dom) (id : Nat) : Dom :=
  if bodyContains dom id then detachFromParent dom id else dom

/-! ### `css_properties_handlers` -/

/-- `handle_overflow(element, element_style)`: both properties are read
before any write, as in the source; the first occurrence of `hidden`
(resp. `fixed`) is substituted, every other sub-value is preserved. -/
def handle_overflow (dom : Dom) (id : Nat) : Dom :=
  match getNode dom id with
  | none => dom
  | some nd =>
    if jsIncludes nd.resOverflow "hidden" then
      if jsIncludes nd.resPosition "fixed" then
        setPositionImp
          (setOverflowImp dom id (jsReplaceFirst nd.resOverflow "hidden" "auto"))
          id (jsReplaceFirst nd.resPosition "fixed" "static")
      else setOverflowImp dom id (jsReplaceFirst nd.resOverflow "hidden" "auto")
    else dom

/-- `handle_blur(element, element_style)`. -/
def handle_blur (dom : Dom) (id : Nat) : Dom :=
  match getNode dom id with
  | none => dom
  | some nd =>
    if jsIncludes nd.resFilter "blur" then setFilterImp dom id "none" else dom

/-- `handle_transparency(element, element_style)`. -/
def handle_transparency (dom : Dom) (id : Nat) : Dom :=
  match getNode dom id with
  | none => dom
  | some nd =>
    if special_elements.excluded_for_transparency.contains nd.tag then dom
    else
      match searchRgba nd.resBgcolor.toList with
      | none => dom
      | some m =>
        if numIsZero m.A then dom
        else
          setBgcolorImp dom id
            ("rgba(" ++ m.R ++ "," ++ m.G ++ "," ++ m.B ++ ",0)")

/-! ### `support_for_css_properties_handlers` -/

/-- The loop body of `has_non_special_ancestors`, on the current ancestor
(`element.parentElement` to start).  `while (current != body && current !=
html)`: reaching either root container exits the loop and yields `true`; a
`null` or non-`HTMLElement` ancestor yields the bare `return` — JS
`undefined`, modelled as `none`; a special ancestor yields `false`.  Fuel 0
stands for a parent cycle, on which the script would never return. -/
def ancWalk (dom : Dom) : Nat → Option Nat → Option Bool
  | 0, _ => none
  | fuel + 1, cur =>
    if cur = some bodyId ∨ cur = some htmlId then some true
    else
      match cur with
      | none => none
      | some c =>
        match getNode dom c with
        | none => none
        | some nd =>
          if !nd.isHTML then none
          else if special_elements.ancestors_for_z_index.contains nd.tag then
            some false
          else ancWalk dom fuel nd.parent

/-- `has_non_special_ancestors(element)`: `some true` / `some false` for the
JS booleans, `none` for the JS `undefined` of the bare `return`. -/
def has_non_special_ancestors (dom : Dom) (id : Nat) : Option Bool :=
  match getNode dom id with
  | none => none
  | some nd => ancWalk dom (domBound dom) nd.parent

/-- The inner `recurse_dom` of `has_non_special_descendants`: the children
loop, then — only while `output` still holds — the shadow-root children
loop.  Each `for (const _element of ...)` pass is the fold of the per-child
body over the id list: skip excluded tags; a landmark tag clears `output`;
recurse (one fuel level down) only while `output` holds. -/
def descStep (dom : Dom) : Nat → Nat → Bool → Bool
  | 0, _, output => output
  | fuel + 1, id, output =>
    match getNode dom id with
    | none => output
    | some nd =>
      let step := fun (out : Bool) (c : Nat) =>
        match getNode dom c with
        | none => out
        | some cnd =>
          if excluded_elements.contains cnd.tag then out
          else
            let out0 :=
              if special_elements.descendants_for_z_index.contains cnd.tag then
                false
              else out
            if out0 then descStep dom fuel c out0 else out0
      let out1 := nd.children.foldl step output
      if out1 then nd.shadow.foldl step out1 else out1

/-- `has_non_special_descendants(root_element)`. -/
def has_non_special_descendants (dom : Dom) (id : Nat) : Bool :=
  descStep dom (domBound dom) id true

/-- `handle_z_index(element, element_style)`: skip excluded tags; when the
`z-index` is neither `auto` nor `0` and the ancestor walk yields a truthy
value (`some true`; JS `undefined` and `false` are both falsy) and the
descendant walk agrees, remove the element and return `'removed'`
(`some "removed"`); every other path falls off the function — `none`. -/
def handle_z_index (dom : Dom) (id : Nat) : Dom × Option String :=
  match getNode dom id with
  | none => (dom, none)
  | some nd =>
    if special_elements.excluded_for_z_index.contains nd.tag then (dom, none)
    else
      if nd.resZindex ≠ "auto" ∧ nd.resZindex ≠ "0" ∧
          has_non_special_ancestors dom id = some true ∧
          has_non_special_descendants dom id = true then
        (remove_element dom id, some "removed")
      else (dom, none)

/-! ### The element classifier and tree walker -/

/-- `examine_and_handle_element(element)`.  The source rejects non-`HTMLElement`
nodes and excluded tags, then runs `handle_blur`; its `handle_transparency`
call is commented out; it runs `handle_z_index` as a bare statement whose
value is discarded, and falls off the end — so the JS function always
returns `undefined` (`none` here), never `'removed'`. -/
def examine_and_handle_element (dom : Dom) (id : Nat) : Dom × Option String :=
  match getNode dom id with
  | none => (dom, none)
  | some nd =>
    if !nd.isHTML || excluded_elements.contains nd.tag then (dom, none)
    else
      let dom1 := handle_blur dom id
      let zres := handle_z_index dom1 id
      (zres.1, none)

/-- The two activation shapes of `recurse_dom` in `examine_dom`: a call on a
node (which runs its children loop, then its shadow-root children loop), or
one of those loops part-way through, at index `i` (`sh` selects the
shadow-root collection). -/
inductive WalkCall where
  | node (id : Nat)
  | loop (pid : Nat) (sh : Bool) (i : Nat)

/-- `recurse_dom` of `examine_dom`, fuelled.  Alongside the final document
the walk returns the ghost trace of ids on which
`examine_and_handle_element` was invoked, in call order.  The `for (const
_element of ...)` collections are live: the child list is re-read from the
current document at every index step, so a removal during the loop shifts
later siblings under the index, as it does in the browser. -/
def walkGo : Nat → WalkCall → Dom → Dom × List Nat
  | 0, _, dom => (dom, [])
  | fuel + 1, .node id, dom =>
    let s1 := walkGo fuel (.loop id false 0) dom
    let s2 := walkGo fuel (.loop id true 0) s1.1
    (s2.1, s1.2 ++ s2.2)
  | fuel + 1, .loop pid sh i, dom =>
    let kids :=
      match getNode dom pid with
      | none => []
      | some nd => if sh then nd.shadow else nd.children
    match kids[i]? with
    | none => (dom, [])
    | some c =>
      match getNode dom c with
      | none => walkGo fuel (.loop pid sh (i + 1)) dom
      | some cnd =>
        if excluded_elements.contains cnd.tag then
          walkGo fuel (.loop pid sh (i + 1)) dom
        else
          let e := examine_and_handle_element dom c
          let s :=
            if e.2 ≠ some "removed" then walkGo fuel (.node c) e.1 else (e.1, [])
          let rest := walkGo fuel (.loop pid sh (i + 1)) s.1
          (rest.1, c :: (s.2 ++ rest.2))

/-- `examine_dom(root_element)` (with explicit fuel), returning the final
document and the ghost trace of classified ids. -/
def examine_dom (fuel : Nat) (dom : Dom) (root : Nat) : Dom × List Nat :=
  walkGo fuel (.node root) dom

/-! ### The mutation reactor callback -/

/-- One record of the `MutationObserver` batch: a `childList` record carries
its `addedNodes`, an `attributes` record its `target`. -/
inductive Mutation where
  | childList (addedNodes : List Nat)
  | attributes (target : Nat)
deriving DecidableEq

/-- Processing of one mutation record by `html_callback`: every added node of
a `childList` record is classified directly; an `attributes` record re-runs
`handle_overflow` on `html` or `body` when the target is one of those (the
global `html_style`/`body_style` objects are live, so the properties are
read from the document as it stands at this point of the batch), and the
full classifier on any other target.  The ghost second component lists the
ids handed to `examine_and_handle_element`. -/
def processMutation (dom : Dom) (m : Mutation) : Dom × List Nat :=
  match m with
  | .childList added =>
    added.foldl
      (fun acc e => ((examine_and_handle_element acc.1 e).1, acc.2 ++ [e]))
      (dom, [])
  | .attributes t =>
    if t = htmlId then (handle_overflow dom htmlId, [])
    else if t = bodyId then (handle_overflow dom bodyId, [])
    else ((examine_and_handle_element dom t).1, [t])

/-- `html_callback(mutationList, observer)`: the records of a delivered batch
are processed to completion, in order. -/
def html_callback (dom : Dom) (batch : List Mutation) : Dom × List Nat :=
  batch.foldl
    (fun acc m =>
      let s := processMutation acc.1 m
      (s.1, acc.2 ++ s.2))
    (dom, [])

/-! ## Basic lemmas about the document store -/

theorem getNode_updateNode (dom : Dom) (id j : Nat) (f : NodeData → NodeData) :
    getNode (updateNode dom id f) j =
      if j = id then (getNode dom j).map f else getNode dom j := by
  induction dom with
  | nil => simp [getNode, updateNode]
  | cons p rest ih =>
    obtain ⟨i, nd⟩ := p
    by_cases hj : i = j
    · subst hj
      by_cases hi : i = id <;> simp [getNode, updateNode, hi]
    · simp [getNode, updateNode, hj, ih]

theorem updateNode_proj {β : Type} (proj : NodeData → β) (dom : Dom) (id j : Nat)
    (f : NodeData → NodeData) (hf : ∀ nd, proj (f nd) = proj nd) :
    (getNode (updateNode dom id f) j).map proj = (getNode dom j).map proj := by
  rw [getNode_updateNode]
  by_cases hj : j = id
  · simp only [hj, if_pos rfl, Option.map_map]
    cases getNode dom id <;> simp [hf]
  · rw [if_neg hj]

theorem domBound_pos (dom : Dom) : 0 < domBound dom := by
  induction dom with
  | nil => simp [domBound]
  | cons p rest ih =>
    simp only [domBound, List.foldr] at ih ⊢
    omega

/-- Everything in a node record except the tree links (`parent`, `children`,
`shadow`): the tag, element-ness, and the five styles with their overrides. -/
def NodeData.nonStruct (nd : NodeData) :
    String × Bool × String × String × String × String × String ×
      Option String × Option String × Option String × Option String :=
  (nd.tag, nd.isHTML, nd.overflow, nd.position, nd.filter, nd.bgcolor,
   nd.zindex, nd.ovOverflow, nd.ovPosition, nd.ovFilter, nd.ovBgcolor)

theorem getNode_detach_proj {β : Type} (proj : NodeData → β)
    (h1 : ∀ nd l, proj { nd with children := l } = proj nd)
    (h2 : ∀ nd, proj { nd with parent := none } = proj nd)
    (dom : Dom) (id j : Nat) :
    (getNode (detachFromParent dom id) j).map proj = (getNode dom j).map proj := by
  cases hg : getNode dom id with
  | none => simp [detachFromParent, hg]
  | some nd =>
    cases hp : nd.parent with
    | none => simp [detachFromParent, hg, hp]
    | some p =>
      simp only [detachFromParent, hg, hp]
      rw [updateNode_proj proj _ _ _ _ (fun d => h2 d),
        updateNode_proj proj _ _ _ _ (fun d => h1 d _)]

theorem getNode_remove_proj {β : Type} (proj : NodeData → β)
    (h1 : ∀ nd l, proj { nd with children := l } = proj nd)
    (h2 : ∀ nd, proj { nd with parent := none } = proj nd)
    (dom : Dom) (id j : Nat) :
    (getNode (remove_element dom id) j).map proj = (getNode dom j).map proj := by
  unfold remove_element
  split
  · exact getNode_detach_proj proj h1 h2 dom id j
  · rfl

theorem handle_blur_cases (dom : Dom) (id : Nat) :
    handle_blur dom id = dom ∨ handle_blur dom id = setFilterImp dom id "none" := by
  cases hg : getNode dom id with
  | none => exact Or.inl (by simp [handle_blur, hg])
  | some nd =>
    by_cases hb : jsIncludes nd.resFilter "blur" = true
    · exact Or.inr (by simp [handle_blur, hg, hb])
    · exact Or.inl (by simp [handle_blur, hg, hb])

theorem handle_blur_proj {β : Type} (proj : NodeData → β)
    (hf : ∀ nd v, proj { nd with ovFilter := some v } = proj nd)
    (dom : Dom) (id j : Nat) :
    (getNode (handle_blur dom id) j).map proj = (getNode dom j).map proj := by
  rcases handle_blur_cases dom id with h | h
  · rw [h]
  · rw [h]
    exact updateNode_proj proj _ _ _ _ (fun d => hf d _)

theorem handle_z_index_cases (dom : Dom) (id : Nat) :
    handle_z_index dom id = (dom, none) ∨
      handle_z_index dom id = (remove_element dom id, some "removed") := by
  cases hg : getNode dom id with
  | none => exact Or.inl (by simp [handle_z_index, hg])
  | some nd =>
    by_cases ht : special_elements.excluded_for_z_index.contains nd.tag = true
    · exact Or.inl (by simp only [handle_z_index, hg, ht, if_true])
    · by_cases hc : nd.resZindex ≠ "auto" ∧ nd.resZindex ≠ "0" ∧
          has_non_special_ancestors dom id = some true ∧
          has_non_special_descendants dom id = true
      · exact Or.inr (by simp only [handle_z_index, hg, ht, if_false,
          Bool.false_eq_true, if_neg, if_pos hc])
      · exact Or.inl (by simp [handle_z_index, hg, ht, hc])

theorem handle_z_index_proj {β : Type} (proj : NodeData → β)
    (h1 : ∀ nd l, proj { nd with children := l } = proj nd)
    (h2 : ∀ nd, proj { nd with parent := none } = proj nd)
    (dom : Dom) (id j : Nat) :
    (getNode (handle_z_index dom id).1 j).map proj = (getNode dom j).map proj := by
  rcases handle_z_index_cases dom id with h | h
  · rw [h]
  · rw [h]
    exact getNode_remove_proj proj h1 h2 dom id j

/-! ## Lemmas towards idempotence of the classifier -/

theorem getNode_setFilterImp_self (dom : Dom) (id : Nat) (v : String) :
    getNode (setFilterImp dom id v) id =
      (getNode dom id).map fun nd => { nd with ovFilter := some v } := by
  unfold setFilterImp
  rw [getNode_updateNode]
  simp

/-- After `handle_blur`, the resolved `filter` of the treated element no
longer contains `blur`: either it never did, or it is now the literal
`none`. -/
theorem handle_blur_resFilter_free (dom : Dom) (id : Nat) (nd' : NodeData)
    (h : getNode (handle_blur dom id) id = some nd') :
    jsIncludes nd'.resFilter "blur" = false := by
  cases hg : getNode dom id with
  | none =>
    rw [show handle_blur dom id = dom by simp [handle_blur, hg], hg] at h
    cases h
  | some nd =>
    by_cases hb : jsIncludes nd.resFilter "blur" = true
    · rw [show handle_blur dom id = setFilterImp dom id "none" by
        simp [handle_blur, hg, hb]] at h
      rw [getNode_setFilterImp_self, hg] at h
      have : nd' = { nd with ovFilter := some "none" } := by
        injection h with h
        exact h.symm
      subst this
      show jsIncludes "none" "blur" = false
      decide
    · rw [show handle_blur dom id = dom by simp [handle_blur, hg, hb], hg] at h
      injection h with h
      subst h
      exact eq_false_of_ne_true hb

theorem handle_blur_noop (dom : Dom) (id : Nat) (nd : NodeData)
    (hg : getNode dom id = some nd) (hb : jsIncludes nd.resFilter "blur" = false) :
    handle_blur dom id = dom := by
  simp [handle_blur, hg, hb]

theorem ancWalk_of_none (dom : Dom) (fuel : Nat) (h : 0 < fuel) :
    ancWalk dom fuel none = none := by
  obtain ⟨k, rfl⟩ := Nat.exists_eq_succ_of_ne_zero (Nat.pos_iff_ne_zero.mp h)
  simp [ancWalk]

/-- A detached element's ancestor walk starts at a `null` parent and yields
the JS `undefined` at once. -/
theorem has_non_special_ancestors_none (dom : Dom) (id : Nat) (nd : NodeData)
    (hg : getNode dom id = some nd) (hp : nd.parent = none) :
    has_non_special_ancestors dom id = none := by
  simp [has_non_special_ancestors, hg, hp, ancWalk_of_none dom _ (domBound_pos dom)]

/-- With a `null` parent the ancestor walk is `undefined`, which is falsy, so
the stacking handler takes no action at all. -/
theorem handle_z_index_noop_of_parent_none (dom : Dom) (id : Nat) (nd : NodeData)
    (hg : getNode dom id = some nd) (hp : nd.parent = none) :
    handle_z_index dom id = (dom, none) := by
  have ha := has_non_special_ancestors_none dom id nd hg hp
  by_cases ht : special_elements.excluded_for_z_index.contains nd.tag = true
  · simp only [handle_z_index, hg, ht, if_true]
  · have hc : ¬(nd.resZindex ≠ "auto" ∧ nd.resZindex ≠ "0" ∧
        has_non_special_ancestors dom id = some true ∧
        has_non_special_descendants dom id = true) := by
      rintro ⟨-, -, h3, -⟩
      rw [ha] at h3
      cases h3
    simp [handle_z_index, hg, ht, hc]

theorem detach_parent_self (dom : Dom) (id : Nat) :
    (getNode (detachFromParent dom id) id).map (fun nd => nd.parent) =
      (getNode dom id).map fun _ => (none : Option Nat) := by
  cases hg : getNode dom id with
  | none => simp [detachFromParent, hg]
  | some nd =>
    cases hp : nd.parent with
    | none => simp [detachFromParent, hg, hp]
    | some p =>
      simp only [detachFromParent, hg, hp]
      rw [getNode_updateNode, if_pos rfl, getNode_updateNode]
      by_cases hpi : id = p
      · rw [if_pos hpi, hg]
        simp
      · rw [if_neg hpi, hg]
        simp

/-- The fields shared through `nonStruct` that the idempotence argument
needs. -/
theorem nonStruct_key_fields {nd nd' : NodeData}
    (h : nd.nonStruct = nd'.nonStruct) :
    nd.tag = nd'.tag ∧ nd.isHTML = nd'.isHTML ∧ nd.resFilter = nd'.resFilter := by
  have h' := h
  simp only [NodeData.nonStruct, Prod.mk.injEq] at h'
  obtain ⟨h1, h2, _, _, h5, _, _, _, _, h10, _⟩ := h'
  exact ⟨h1, h2, by simp [NodeData.resFilter, h5, h10]⟩

theorem getNode_of_map_proj {β : Type} {proj : NodeData → β} {a b : Dom}
    {j : Nat} {ndb : NodeData}
    (h : (getNode a j).map proj = (getNode b j).map proj)
    (hb : getNode b j = some ndb) :
    ∃ nda, getNode a j = some nda ∧ proj nda = proj ndb := by
  rw [hb] at h
  cases ha : getNode a j with
  | none =>
    rw [ha] at h
    cases h
  | some nda =>
    rw [ha] at h
    exact ⟨nda, rfl, by simpa using h⟩

theorem examine_unfold (dom : Dom) (id : Nat) (nd : NodeData)
    (hg : getNode dom id = some nd)
    (hguard : (!nd.isHTML || excluded_elements.contains nd.tag) = false) :
    examine_and_handle_element dom id =
      ((handle_z_index (handle_blur dom id) id).1, none) := by
  simp only [examine_and_handle_element, hg]
  rw [if_neg (ne_true_of_eq_false hguard)]

/-- C7: invoking the Element Classifier twice in succession on the same
element, with no intervening external style change, produces no further
style mutation and no further removal — the second call returns the
document state of the first call unchanged, with the same signal.  The blur
correction rewrites `filter` to `none`, which no longer matches `blur`, and
a stacking removal leaves the element with a `null` parent, on which the
ancestor guard is falsy, so the stacking branch cannot fire again. -/
theorem claim_C7 (dom : Dom) (id : Nat) :
    examine_and_handle_element (examine_and_handle_element dom id).1 id =
      examine_and_handle_element dom id := by
  cases hg : getNode dom id with
  | none =>
    have e1 : examine_and_handle_element dom id = (dom, none) := by
      simp [examine_and_handle_element, hg]
    rw [e1]
    exact e1
  | some nd =>
    by_cases hguard : (!nd.isHTML || excluded_elements.contains nd.tag) = true
    · have e1 : examine_and_handle_element dom id = (dom, none) := by
        simp only [examine_and_handle_element, hg, hguard, if_true]
      rw [e1]
      exact e1
    · have hguard2 : (!nd.isHTML || excluded_elements.contains nd.tag) = false :=
        eq_false_of_ne_true hguard
      have e1 := examine_unfold dom id nd hg hguard2
      obtain ⟨ndb, hgb, hkb⟩ :=
        getNode_of_map_proj
          (handle_blur_proj (fun nd => (nd.tag, nd.isHTML)) (fun _ _ => rfl)
            dom id id) hg
      rw [Prod.mk.injEq] at hkb
      obtain ⟨htagb, hisb⟩ := hkb
      have hguardb : (!ndb.isHTML || excluded_elements.contains ndb.tag) = false := by
        rw [htagb, hisb]
        exact hguard2
      have hfree : jsIncludes ndb.resFilter "blur" = false :=
        handle_blur_resFilter_free dom id ndb hgb
      have hblur2 : handle_blur (handle_blur dom id) id = handle_blur dom id :=
        handle_blur_noop _ id ndb hgb hfree
      by_cases hd :
          (handle_z_index (handle_blur dom id) id).1 = handle_blur dom id
      · rw [e1, hd]
        show examine_and_handle_element (handle_blur dom id) id =
          (handle_blur dom id, none)
        rw [examine_unfold (handle_blur dom id) id ndb hgb hguardb, hblur2, hd]
      · rcases handle_z_index_cases (handle_blur dom id) id with hz | hz
        · exact absurd (by rw [hz]) hd
        · by_cases hct : bodyContains (handle_blur dom id) id = true
          · have hdet : (handle_z_index (handle_blur dom id) id).1 =
                detachFromParent (handle_blur dom id) id := by
              rw [hz]
              show remove_element (handle_blur dom id) id = _
              unfold remove_element
              rw [if_pos hct]
            obtain ⟨nd2, hg2, hns2⟩ :=
              getNode_of_map_proj
                (handle_z_index_proj NodeData.nonStruct (fun _ _ => rfl)
                  (fun _ => rfl) (handle_blur dom id) id id) hgb
            have hps := detach_parent_self (handle_blur dom id) id
            rw [← hdet, hg2, hgb] at hps
            have hp2 : nd2.parent = none := by simpa using hps
            obtain ⟨htag2, his2, hres2⟩ := nonStruct_key_fields hns2
            have hguard3 :
                (!nd2.isHTML || excluded_elements.contains nd2.tag) = false := by
              rw [htag2, his2]
              rw [htagb, hisb]
              exact hguard2
            have hfree2 : jsIncludes nd2.resFilter "blur" = false := by
              rw [hres2]
              exact hfree
            have hblur3 :
                handle_blur (handle_z_index (handle_blur dom id) id).1 id =
                  (handle_z_index (handle_blur dom id) id).1 :=
              handle_blur_noop _ id nd2 hg2 hfree2
            have hz2 :
                handle_z_index (handle_z_index (handle_blur dom id) id).1 id =
                  ((handle_z_index (handle_blur dom id) id).1, none) :=
              handle_z_index_noop_of_parent_none _ id nd2 hg2 hp2
            rw [e1]
            show examine_and_handle_element
                (handle_z_index (handle_blur dom id) id).1 id =
              ((handle_z_index (handle_blur dom id) id).1, none)
            rw [examine_unfold _ id nd2 hg2 hguard3, hblur3, hz2]
          · refine absurd ?_ hd
            rw [hz]
            show remove_element (handle_blur dom id) id = handle_blur dom id
            unfold remove_element
            rw [if_neg hct]

/-! ## Concrete document fixtures -/

/-- `html → body → div#7` where the div has a translucent rgba background
and nothing else of note. -/
def c1dom : Dom :=
  [(0, { tag := "HTML", children := [1] }),
   (1, { tag := "BODY", parent := some 0, children := [7] }),
   (7, { tag := "DIV", parent := some 1, bgcolor := "rgba(1,2,3,0.5)" })]

/-- `html → body → div#2 (z-index 5) → div#3 (blurred)`: the outer div is a
stacking candidate that passes both guards; the inner div carries a blur. -/
def c2dom : Dom :=
  [(0, { tag := "HTML", children := [1] }),
   (1, { tag := "BODY", parent := some 0, children := [2] }),
   (2, { tag := "DIV", parent := some 1, children := [3], zindex := "5" }),
   (3, { tag := "DIV", parent := some 2, filter := "blur(2px)" })]

/-- A detached two-element fragment `div#5 → div#6 (z-index 5)` next to the
usual roots: walking up from 6 meets the `null` parent of 5 before any root
container. -/
def c3dom : Dom :=
  [(0, { tag := "HTML", children := [1] }),
   (1, { tag := "BODY", parent := some 0 }),
   (5, { tag := "DIV" }),
   (6, { tag := "DIV", parent := some 5, zindex := "5" })]

/-- `div#2 (z-index 3)` attached directly under `html`, next to `body`: both
stacking guards pass, but the element is not under `body`. -/
def c4dom : Dom :=
  [(0, { tag := "HTML", children := [1, 2] }),
   (1, { tag := "BODY", parent := some 0 }),
   (2, { tag := "DIV", parent := some 0, zindex := "3" })]

/-- Three divs under `body` carrying the three spec fixture colors. -/
def c5dom : Dom :=
  [(0, { tag := "HTML", children := [1] }),
   (1, { tag := "BODY", parent := some 0, children := [2, 3, 4] }),
   (2, { tag := "DIV", parent := some 1, bgcolor := "rgba(12, 34, 56, 0.8)" }),
   (3, { tag := "DIV", parent := some 1, bgcolor := "rgba(0,0,0,0)" }),
   (4, { tag := "DIV", parent := some 1, bgcolor := "#fff8" })]

/-- A div whose background alpha is the literal `1` — integral, neither `0`
nor of the `0.x` shape. -/
def c5xdom : Dom :=
  [(0, { tag := "HTML", children := [1] }),
   (1, { tag := "BODY", parent := some 0, children := [2] }),
   (2, { tag := "DIV", parent := some 1, bgcolor := "rgba(1,2,3,1)" })]

/-- A scroll-locked fixture: `div#2` with `overflow: hidden auto` and
`position: fixed`. -/
def c6dom : Dom :=
  [(0, { tag := "HTML", children := [1] }),
   (1, { tag := "BODY", parent := some 0, children := [2] }),
   (2, { tag := "DIV", parent := some 1, overflow := "hidden auto",
         position := "fixed" })]

/-! ## C10: the removal routine is guarded and a no-op on detached nodes -/

theorem bodyContains_false_of_parent_none (dom : Dom) (id : Nat)
    (nd : NodeData) (hg : getNode dom id = some nd) (hp : nd.parent = none)
    (hid : id ≠ bodyId) : bodyContains dom id = false := by
  unfold bodyContains
  obtain ⟨k, hk⟩ := Nat.exists_eq_succ_of_ne_zero
    (Nat.pos_iff_ne_zero.mp (domBound_pos dom))
  rw [hk]
  simp [containsWalk, hid, hg, hp]

/-- C10: `remove_element` detaches only after checking the element is still
attached under `body`; on a node that fails that check — in particular on
any already-detached node (`null` parent) other than `body` itself — it
changes nothing, and (being a total function) raises no error. -/
theorem claim_C10 :
    (∀ dom id, bodyContains dom id = false → remove_element dom id = dom) ∧
    (∀ dom id, remove_element dom id = dom ∨ bodyContains dom id = true) ∧
    (∀ dom id nd, getNode dom id = some nd → nd.parent = none →
      id ≠ bodyId → remove_element dom id = dom) := by
  refine ⟨fun dom id h => ?_, fun dom id => ?_, fun dom id nd hg hp hid => ?_⟩
  · unfold remove_element
    rw [h]
    simp
  · by_cases h : bodyContains dom id = true
    · exact Or.inr h
    · refine Or.inl ?_
      unfold remove_element
      rw [eq_false_of_ne_true h]
      simp
  · unfold remove_element
    rw [bodyContains_false_of_parent_none dom id nd hg hp hid]
    simp

/-- Witness for C10 at a concrete input: removing the detached `div#5` of
`c3dom` leaves the document untouched. -/
theorem claim_C10_witness : remove_element c3dom 5 = c3dom :=
  claim_C10.2.2 c3dom 5 { tag := "DIV" } (by decide) rfl (by decide)

/-! ## C3: a `null` ancestor vetoes the stacking removal -/

/-- C3 counterexample: `div#6` of `c3dom` qualifies on `z-index`, its
descendant check passes, and its ancestor walk meets a `null` ancestor —
yet `handle_z_index` does **not** remove it: the walk's `undefined` is
falsy, so the whole guard conjunction fails and the document is returned
unchanged, contradicting the claimed "removal proceeds". -/
theorem claim_C3_counterexample :
    has_non_special_ancestors c3dom 6 = none ∧
    has_non_special_descendants c3dom 6 = true ∧
    (getNode c3dom 6).map NodeData.resZindex = some "5" ∧
    special_elements.excluded_for_z_index.contains "DIV" = false ∧
    handle_z_index c3dom 6 = (c3dom, none) := by decide

/-- C3 (amended): when the upward parent walk reaches a disconnected
(`null`) ancestor before `body`/`html`, `has_non_special_ancestors` yields
the JS `undefined`, which is falsy in the guard conjunction — so the
stacking handler takes no action at all (no removal, no signal), even when
the descendant check passes. -/
theorem claim_C3 (dom : Dom) (id : Nat)
    (h : has_non_special_ancestors dom id = none) :
    handle_z_index dom id = (dom, none) := by
  cases hg : getNode dom id with
  | none => simp [handle_z_index, hg]
  | some nd =>
    by_cases ht : special_elements.excluded_for_z_index.contains nd.tag = true
    · simp only [handle_z_index, hg, ht, if_true]
    · have hc : ¬(nd.resZindex ≠ "auto" ∧ nd.resZindex ≠ "0" ∧
          has_non_special_ancestors dom id = some true ∧
          has_non_special_descendants dom id = true) := by
        rintro ⟨-, -, h3, -⟩
        rw [h] at h3
        cases h3
      simp [handle_z_index, hg, ht, hc]

/-- Witness for C3 at a concrete input. -/
theorem claim_C3_witness : handle_z_index c3dom 6 = (c3dom, none) :=
  claim_C3 c3dom 6 (by decide)

/-! ## C4: the guard conjunction governs the removal attempt -/

/-- C4 counterexample: `div#2` of `c4dom` sits under `html` but not under
`body`; its tag is not stacking-excluded, its `z-index` is `3`, and **both**
guard checks pass — yet the element is not removed from the tree
(`remove_element`'s `body.contains` check fails), refuting the claimed
"removed if and only if both checks pass". -/
theorem claim_C4_counterexample :
    (getNode c4dom 2).map (fun nd => nd.tag) = some "DIV" ∧
    (getNode c4dom 2).map NodeData.resZindex = some "3" ∧
    has_non_special_ancestors c4dom 2 = some true ∧
    has_non_special_descendants c4dom 2 = true ∧
    (handle_z_index c4dom 2).1 = c4dom ∧
    (handle_z_index c4dom 2).2 = some "removed" := by decide

/-- C4 (amended): for a non-excluded tag with qualifying `z-index`, the
stacking handler invokes the removal routine and signals `removed` exactly
when both guard checks pass; otherwise it leaves the document untouched and
signals nothing.  Actual detachment additionally requires the element to
still be attached under `body`: when `body.contains` fails, the document is
returned unchanged even on the removal path. -/
theorem claim_C4 (dom : Dom) (id : Nat) (nd : NodeData)
    (hg : getNode dom id = some nd)
    (ht : special_elements.excluded_for_z_index.contains nd.tag = false)
    (hz1 : nd.resZindex ≠ "auto") (hz2 : nd.resZindex ≠ "0") :
    (handle_z_index dom id = (remove_element dom id, some "removed") ↔
      has_non_special_ancestors dom id = some true ∧
        has_non_special_descendants dom id = true) ∧
    (¬(has_non_special_ancestors dom id = some true ∧
        has_non_special_descendants dom id = true) →
      handle_z_index dom id = (dom, none)) ∧
    (bodyContains dom id = false → (handle_z_index dom id).1 = dom) := by
  have htn := ne_true_of_eq_false ht
  by_cases hc : has_non_special_ancestors dom id = some true ∧
      has_non_special_descendants dom id = true
  · have hfull : nd.resZindex ≠ "auto" ∧ nd.resZindex ≠ "0" ∧
        has_non_special_ancestors dom id = some true ∧
        has_non_special_descendants dom id = true := ⟨hz1, hz2, hc.1, hc.2⟩
    have hzi : handle_z_index dom id = (remove_element dom id, some "removed") := by
      simp only [handle_z_index, hg]
      rw [if_neg htn, if_pos hfull]
    refine ⟨⟨fun _ => hc, fun _ => hzi⟩, fun h => absurd hc h, fun hbc => ?_⟩
    rw [hzi]
    show remove_element dom id = dom
    unfold remove_element
    rw [hbc]
    simp
  · have hnc : ¬(nd.resZindex ≠ "auto" ∧ nd.resZindex ≠ "0" ∧
        has_non_special_ancestors dom id = some true ∧
        has_non_special_descendants dom id = true) := by
      rintro ⟨-, -, h3, h4⟩
      exact hc ⟨h3, h4⟩
    have hzi : handle_z_index dom id = (dom, none) := by
      simp only [handle_z_index, hg]
      rw [if_neg htn, if_neg hnc]
    refine ⟨⟨fun h => ?_, fun h => absurd h hc⟩, fun _ => hzi, fun _ => by rw [hzi]⟩
    rw [hzi] at h
    have : (none : Option String) = some "removed" := congrArg Prod.snd h
    cases this

/-- Witness for C4 at a concrete input: in `c2dom` both checks pass for
`div#2` and the handler removes it. -/
theorem claim_C4_witness :
    handle_z_index c2dom 2 = (remove_element c2dom 2, some "removed") :=
  ((claim_C4 c2dom 2
    { tag := "DIV", parent := some 1, children := [3], zindex := "5" }
    (by decide) (by decide) (by decide) (by decide)).1).mpr (by decide)

/-! ## C1: the classifier does not invoke the transparency handler -/

/-- The classifier never writes `background-color`: its only style write is
the blur correction, and its only other effect is a detachment. -/
theorem examine_preserves_ovBgcolor (dom : Dom) (id j : Nat) :
    (getNode (examine_and_handle_element dom id).1 j).map
        (fun nd => nd.ovBgcolor) =
      (getNode dom j).map fun nd => nd.ovBgcolor := by
  cases hg : getNode dom id with
  | none => simp [examine_and_handle_element, hg]
  | some nd =>
    by_cases hguard : (!nd.isHTML || excluded_elements.contains nd.tag) = true
    · simp only [examine_and_handle_element, hg, hguard, if_true]
    · rw [examine_unfold dom id nd hg (eq_false_of_ne_true hguard)]
      show (getNode (handle_z_index (handle_blur dom id) id).1 j).map
          (fun nd => nd.ovBgcolor) = _
      rw [handle_z_index_proj (fun nd => nd.ovBgcolor) (fun _ _ => rfl)
        (fun _ => rfl) (handle_blur dom id) id j]
      exact handle_blur_proj (fun nd => nd.ovBgcolor) (fun _ _ => rfl) dom id j

/-- When the transparency handler itself is invoked on a non-excluded tag
whose background matches the pattern with nonzero alpha, it installs the
exact rewritten color with `important` priority. -/
theorem handle_transparency_rewrites (dom : Dom) (id : Nat) (nd : NodeData)
    (m : RgbaGroups) (hg : getNode dom id = some nd)
    (ht : special_elements.excluded_for_transparency.contains nd.tag = false)
    (hm : searchRgba nd.resBgcolor.toList = some m)
    (ha : numIsZero m.A = false) :
    (getNode (handle_transparency dom id) id).map (fun nd => nd.ovBgcolor) =
      some (some ("rgba(" ++ m.R ++ "," ++ m.G ++ "," ++ m.B ++ ",0)")) := by
  simp only [handle_transparency, hg, hm]
  rw [if_neg (ne_true_of_eq_false ht), if_neg (ne_true_of_eq_false ha)]
  unfold setBgcolorImp
  rw [getNode_updateNode, if_pos rfl, hg]
  rfl

/-- C1 counterexample: `div#7` of `c1dom` is a genuine HTML element, its tag
is not transparency-excluded, and its computed background is
`rgba(1,2,3,0.5)` with alpha ≠ 0 — yet one call of the Element Classifier
returns the document completely unchanged and installs no
`background-color` override at all: the `handle_transparency` call inside
`examine_and_handle_element` is commented out in the source. -/
theorem claim_C1_counterexample :
    special_elements.excluded_for_transparency.contains "DIV" = false ∧
    (getNode c1dom 7).map NodeData.resBgcolor = some "rgba(1,2,3,0.5)" ∧
    (getNode c1dom 7).map (fun nd => nd.isHTML) = some true ∧
    examine_and_handle_element c1dom 7 = (c1dom, none) ∧
    (getNode (examine_and_handle_element c1dom 7).1 7).map
        (fun nd => nd.ovBgcolor) = some none := by decide

/-- C1 (amended): a single call of the Element Classifier never rewrites any
element's `background-color` — the transparency step is not invoked (the
call is commented out).  The rewrite described by the claim is performed
only when `handle_transparency` itself is applied: for a non-excluded tag
whose background matches `rgba(R,G,B,A)` with `Number(A) ≠ 0`, it installs
`rgba(R,G,B,0)` with `important` priority. -/
theorem claim_C1 :
    (∀ dom id j,
      (getNode (examine_and_handle_element dom id).1 j).map
          (fun nd => nd.ovBgcolor) =
        (getNode dom j).map fun nd => nd.ovBgcolor) ∧
    (∀ dom id nd m, getNode dom id = some nd →
      special_elements.excluded_for_transparency.contains nd.tag = false →
      searchRgba nd.resBgcolor.toList = some m → numIsZero m.A = false →
      (getNode (handle_transparency dom id) id).map (fun nd => nd.ovBgcolor) =
        some (some ("rgba(" ++ m.R ++ "," ++ m.G ++ "," ++ m.B ++ ",0)"))) :=
  ⟨examine_preserves_ovBgcolor, handle_transparency_rewrites⟩

/-- Witness for C1 at a concrete input: `handle_transparency`, called
directly on `div#7` of `c1dom`, rewrites the background. -/
theorem claim_C1_witness :
    (getNode (handle_transparency c1dom 7) 7).map (fun nd => nd.ovBgcolor) =
      some (some "rgba(1,2,3,0)") :=
  (claim_C1.2 c1dom 7
    { tag := "DIV", parent := some 1, bgcolor := "rgba(1,2,3,0.5)" }
    ⟨"1", "2", "3", "0.5"⟩ (by decide) (by decide) (by decide)
    (by decide)).trans (by decide)

/-! ## C5: exact behavior of the transparency predicate -/

/-- C5 counterexample: the computed background `rgba(1,2,3,1)` — whose alpha
is the literal `1`, neither `0` nor of the form `0.x` — is **not** left
untouched: the regexp's alpha alternative `\d|\d\.\d+` accepts any single
digit, so the handler rewrites the color to `rgba(1,2,3,0)`. -/
theorem claim_C5_counterexample :
    (getNode c5xdom 2).map NodeData.resBgcolor = some "rgba(1,2,3,1)" ∧
    (getNode (handle_transparency c5xdom 2) 2).map (fun nd => nd.ovBgcolor) =
      some (some "rgba(1,2,3,0)") := by decide

/-- C5 (amended): `handle_transparency` on a non-excluded tag corrects
`rgba(12, 34, 56, 0.8)` to exactly `rgba(12,34,56,0)` with `important`
priority; it mutates nothing for `rgba(0,0,0,0)`; it mutates nothing for
any background that the pattern `rgba(R,G,B,A)` fails to match — with
integer `R`,`G`,`B` and `A` a single digit or digit-dot-digits (hex such as
`#fff8`, named colors and `rgb()` therefore stay untouched, but integral
alphas such as `1` do trigger the rewrite); and whenever the pattern
matches with `Number(A) ≠ 0`, the rewrite is exactly `rgba(R,G,B,0)`. -/
theorem claim_C5 :
    ((getNode (handle_transparency c5dom 2) 2).map (fun nd => nd.ovBgcolor) =
      some (some "rgba(12,34,56,0)")) ∧
    (handle_transparency c5dom 3 = c5dom) ∧
    (handle_transparency c5dom 4 = c5dom) ∧
    (∀ dom id nd, getNode dom id = some nd →
      searchRgba nd.resBgcolor.toList = none →
      handle_transparency dom id = dom) ∧
    (∀ dom id nd m, getNode dom id = some nd →
      searchRgba nd.resBgcolor.toList = some m → numIsZero m.A = true →
      handle_transparency dom id = dom) ∧
    (∀ dom id nd m, getNode dom id = some nd →
      special_elements.excluded_for_transparency.contains nd.tag = false →
      searchRgba nd.resBgcolor.toList = some m → numIsZero m.A = false →
      (getNode (handle_transparency dom id) id).map (fun nd => nd.ovBgcolor) =
        some (some ("rgba(" ++ m.R ++ "," ++ m.G ++ "," ++ m.B ++ ",0)"))) := by
  refine ⟨by decide, by decide, by decide, ?_, ?_, handle_transparency_rewrites⟩
  · intro dom id nd hg hm
    by_cases ht : special_elements.excluded_for_transparency.contains nd.tag = true
    · simp only [handle_transparency, hg, ht, if_true]
    · simp only [handle_transparency, hg, hm]
      rw [if_neg ht]
  · intro dom id nd m hg hm ha
    by_cases ht : special_elements.excluded_for_transparency.contains nd.tag = true
    · simp only [handle_transparency, hg, ht, if_true]
    · simp only [handle_transparency, hg, hm]
      rw [if_neg ht, if_pos ha]

/-- Witness for C5 at a concrete input: the non-matching hex background of
`div#4` triggers no mutation, through the no-match clause of `claim_C5`. -/
theorem claim_C5_witness : handle_transparency c5dom 4 = c5dom :=
  claim_C5.2.2.2.1 c5dom 4
    { tag := "DIV", parent := some 1, bgcolor := "#fff8" }
    (by decide) (by decide)

/-! ## C6: exact behavior of the scroll-lock predicate -/

/-- C6: on an element whose computed `overflow` is `hidden auto` and
`position` is `fixed`, `handle_overflow` installs exactly `auto auto` and
`static` as `important` overrides (first-occurrence textual substitution,
preserving the other sub-value); it changes nothing at all when `overflow`
does not contain `hidden`; and it never touches `position` when `position`
does not contain `fixed`. -/
theorem claim_C6 :
    (∀ dom id nd, getNode dom id = some nd →
      nd.resOverflow = "hidden auto" → nd.resPosition = "fixed" →
      (getNode (handle_overflow dom id) id).map
          (fun d => (d.ovOverflow, d.ovPosition)) =
        some (some "auto auto", some "static")) ∧
    (∀ dom id nd, getNode dom id = some nd →
      jsIncludes nd.resOverflow "hidden" = false →
      handle_overflow dom id = dom) ∧
    (∀ dom id nd, getNode dom id = some nd →
      jsIncludes nd.resPosition "fixed" = false →
      (getNode (handle_overflow dom id) id).map (fun d => d.ovPosition) =
        some nd.ovPosition) := by
  refine ⟨?_, ?_, ?_⟩
  · intro dom id nd hg hov hpos
    simp only [handle_overflow, hg, hov, hpos]
    unfold setPositionImp setOverflowImp
    rw [if_pos (by decide : jsIncludes "hidden auto" "hidden" = true),
      if_pos (by decide : jsIncludes "fixed" "fixed" = true),
      getNode_updateNode, if_pos rfl, getNode_updateNode, if_pos rfl, hg]
    show some (some (jsReplaceFirst "hidden auto" "hidden" "auto"),
        some (jsReplaceFirst "fixed" "fixed" "static")) =
      some (some "auto auto", some "static")
    decide
  · intro dom id nd hg hov
    simp [handle_overflow, hg, hov]
  · intro dom id nd hg hpos
    by_cases hov : jsIncludes nd.resOverflow "hidden" = true
    · simp only [handle_overflow, hg, hov, if_true]
      rw [if_neg (ne_true_of_eq_false hpos)]
      unfold setOverflowImp
      rw [getNode_updateNode, if_pos rfl, hg]
      rfl
    · simp only [handle_overflow, hg]
      rw [if_neg hov, hg]
      rfl

/-- Witness for C6 at a concrete input: the `c6dom` fixture is corrected to
exactly `auto auto` / `static`. -/
theorem claim_C6_witness :
    (getNode (handle_overflow c6dom 2) 2).map
        (fun d => (d.ovOverflow, d.ovPosition)) =
      some (some "auto auto", some "static") :=
  claim_C6.1 c6dom 2
    { tag := "DIV", parent := some 1, overflow := "hidden auto",
      position := "fixed" }
    (by decide) (by decide) (by decide)

/-! ## C2: the `removed` signal is lost -/

/-- The JS `examine_and_handle_element` has no `return` statement: whatever
`handle_z_index` reports, the function returns `undefined`. -/
theorem examine_snd_none (dom : Dom) (id : Nat) :
    (examine_and_handle_element dom id).2 = none := by
  cases hg : getNode dom id with
  | none => simp [examine_and_handle_element, hg]
  | some nd =>
    by_cases hguard : (!nd.isHTML || excluded_elements.contains nd.tag) = true
    · simp only [examine_and_handle_element, hg, hguard, if_true]
    · rw [examine_unfold dom id nd hg (eq_false_of_ne_true hguard)]

/-- C2, evaluated at the failing input: on `c2dom` the stacking handler
removes `div#2` and reports `'removed'`, but the classifier discards that
result and returns `undefined` (`none`) — so `examine_dom`'s
`result != 'removed'` test passes and the walker recurses into the
now-detached subtree, classifying `div#3` there and correcting its blur,
instead of pruning it as the claim (and the walker's own check) intends.
The first conjunct shows the classifier's signal is `none` on **every**
input, so the `'removed'` propagation the claim describes never happens. -/
theorem claim_C2 :
    (∀ dom id, (examine_and_handle_element dom id).2 = none) ∧
    (handle_z_index c2dom 2).2 = some "removed" ∧
    (getNode (examine_and_handle_element c2dom 2).1 2).map
        (fun nd => nd.parent) = some none ∧
    (examine_dom 10 c2dom bodyId).2 = [2, 3] ∧
    (getNode (examine_dom 10 c2dom bodyId).1 3).map (fun nd => nd.ovFilter) =
      some (some "none") :=
  ⟨examine_snd_none, by decide, by decide, by decide, by decide⟩

/-! ## C9: the mutation reactor's attribute transitions -/

theorem handle_overflow_getNode_ne (dom : Dom) (id j : Nat) (h : j ≠ id) :
    getNode (handle_overflow dom id) j = getNode dom j := by
  cases hg : getNode dom id with
  | none => simp [handle_overflow, hg]
  | some nd =>
    simp only [handle_overflow, hg]
    by_cases hov : jsIncludes nd.resOverflow "hidden" = true
    · rw [if_pos hov]
      by_cases hpos : jsIncludes nd.resPosition "fixed" = true
      · rw [if_pos hpos]
        unfold setPositionImp setOverflowImp
        rw [getNode_updateNode, if_neg h, getNode_updateNode, if_neg h]
      · rw [if_neg hpos]
        unfold setOverflowImp
        rw [getNode_updateNode, if_neg h]
    · rw [if_neg hov]

/-- One classifier call leaves every node other than its target with all its
non-structural state (tag, element-ness, the five styles and their
overrides) intact. -/
theorem examine_nonStruct_ne (dom : Dom) (id j : Nat) (h : j ≠ id) :
    (getNode (examine_and_handle_element dom id).1 j).map NodeData.nonStruct =
      (getNode dom j).map NodeData.nonStruct := by
  cases hg : getNode dom id with
  | none => simp [examine_and_handle_element, hg]
  | some nd =>
    by_cases hguard : (!nd.isHTML || excluded_elements.contains nd.tag) = true
    · simp only [examine_and_handle_element, hg, hguard, if_true]
    · rw [examine_unfold dom id nd hg (eq_false_of_ne_true hguard)]
      show (getNode (handle_z_index (handle_blur dom id) id).1 j).map
          NodeData.nonStruct = _
      rw [handle_z_index_proj NodeData.nonStruct (fun _ _ => rfl) (fun _ => rfl)
        (handle_blur dom id) id j]
      rcases handle_blur_cases dom id with hb | hb
      · rw [hb]
      · rw [hb]
        unfold setFilterImp
        rw [getNode_updateNode, if_neg h]

/-- C9: within a delivered batch, an attribute mutation on `html` re-runs
the scroll-lock handler on `html` against the document as already modified
by the earlier records of the batch (the computed-style object is live, not
a snapshot) — same for `body`; any other attribute target gets one full
classifier call and is the only id classified; and no node other than the
mutated target has any of its styles (or overrides, or tag) changed —
attribute mutations never recurse into children. -/
theorem claim_C9 :
    (∀ dom pre,
      html_callback dom (pre ++ [Mutation.attributes htmlId]) =
        (handle_overflow (html_callback dom pre).1 htmlId,
          (html_callback dom pre).2)) ∧
    (∀ dom pre,
      html_callback dom (pre ++ [Mutation.attributes bodyId]) =
        (handle_overflow (html_callback dom pre).1 bodyId,
          (html_callback dom pre).2)) ∧
    (∀ dom pre t, t ≠ htmlId → t ≠ bodyId →
      html_callback dom (pre ++ [Mutation.attributes t]) =
        ((examine_and_handle_element (html_callback dom pre).1 t).1,
          (html_callback dom pre).2 ++ [t])) ∧
    (∀ dom t j, j ≠ t →
      (getNode (processMutation dom (Mutation.attributes t)).1 j).map
          NodeData.nonStruct =
        (getNode dom j).map NodeData.nonStruct) := by
  refine ⟨?_, ?_, ?_, ?_⟩
  · intro dom pre
    simp [html_callback, List.foldl_append, processMutation]
  · intro dom pre
    simp [html_callback, List.foldl_append, processMutation, bodyId, htmlId]
  · intro dom pre t h1 h2
    simp [html_callback, List.foldl_append, processMutation, h1, h2]
  · intro dom t j hj
    simp only [processMutation]
    by_cases h1 : t = htmlId
    · rw [if_pos h1]
      show (getNode (handle_overflow dom htmlId) j).map NodeData.nonStruct = _
      rw [handle_overflow_getNode_ne dom htmlId j (h1 ▸ hj)]
    · rw [if_neg h1]
      by_cases h2 : t = bodyId
      · rw [if_pos h2]
        show (getNode (handle_overflow dom bodyId) j).map NodeData.nonStruct = _
        rw [handle_overflow_getNode_ne dom bodyId j (h2 ▸ hj)]
      · rw [if_neg h2]
        exact examine_nonStruct_ne dom t j hj

/-- Witness for C9 at a concrete input: an attribute mutation on the plain
element `div#7` runs exactly one classifier call on it. -/
theorem claim_C9_witness :
    html_callback c1dom ([] ++ [Mutation.attributes 7]) =
      ((examine_and_handle_element (html_callback c1dom []).1 7).1,
        (html_callback c1dom []).2 ++ [7]) :=
  claim_C9.2.2.1 c1dom [] 7 (by decide) (by decide)

/-! ## C8: the exclusion invariant of the walker

The engine's actions only shrink the document: node records are never
created, tags never change, and child/shadow lists only lose members (a
removal).  `Shrinks dom0 dom` captures that `dom` is such a residue of
`dom0`; it lets every id the walker meets in an intermediate document be
traced back to an edge of the initial document. -/

/-- Every node still present has its original tag, and child/shadow lists
that are subsets of the original ones. -/
def Shrinks (dom0 dom : Dom) : Prop :=
  ∀ id nd', getNode dom id = some nd' →
    ∃ nd, getNode dom0 id = some nd ∧ nd'.tag = nd.tag ∧
      (∀ c ∈ nd'.children, c ∈ nd.children) ∧ ∀ c ∈ nd'.shadow, c ∈ nd.shadow

theorem shrinks_refl (dom : Dom) : Shrinks dom dom :=
  fun _ nd' h => ⟨nd', h, rfl, fun _ hc => hc, fun _ hc => hc⟩

theorem shrinks_trans {a b c : Dom} (h1 : Shrinks a b) (h2 : Shrinks b c) :
    Shrinks a c := by
  intro id nd' h
  obtain ⟨ndb, hb, ht1, hc1, hs1⟩ := h2 id nd' h
  obtain ⟨nda, ha, ht2, hc2, hs2⟩ := h1 id ndb hb
  exact ⟨nda, ha, ht1.trans ht2, fun x hx => hc2 x (hc1 x hx),
    fun x hx => hs2 x (hs1 x hx)⟩

theorem shrinks_updateNode (dom : Dom) (id : Nat) (f : NodeData → NodeData)
    (hf : ∀ nd, (f nd).tag = nd.tag ∧ (∀ c ∈ (f nd).children, c ∈ nd.children) ∧
      ∀ c ∈ (f nd).shadow, c ∈ nd.shadow) :
    Shrinks dom (updateNode dom id f) := by
  intro j nd' hj
  rw [getNode_updateNode] at hj
  by_cases h : j = id
  · rw [if_pos h] at hj
    cases hg : getNode dom j with
    | none =>
      rw [hg] at hj
      cases hj
    | some nd =>
      rw [hg] at hj
      injection hj with hj
      subst hj
      exact ⟨nd, rfl, (hf nd).1, (hf nd).2.1, (hf nd).2.2⟩
  · rw [if_neg h] at hj
    exact ⟨nd', hj, rfl, fun _ hx => hx, fun _ hx => hx⟩

theorem shrinks_detach (dom : Dom) (id : Nat) :
    Shrinks dom (detachFromParent dom id) := by
  cases hg : getNode dom id with
  | none =>
    rw [show detachFromParent dom id = dom by simp [detachFromParent, hg]]
    exact shrinks_refl dom
  | some nd =>
    cases hp : nd.parent with
    | none =>
      rw [show detachFromParent dom id = dom by simp [detachFromParent, hg, hp]]
      exact shrinks_refl dom
    | some p =>
      have hd : detachFromParent dom id =
          updateNode
            (updateNode dom p fun pd =>
              { pd with children := pd.children.filter fun c => c ≠ id })
            id fun d => { d with parent := none } := by
        simp [detachFromParent, hg, hp]
      rw [hd]
      exact shrinks_trans
        (shrinks_updateNode dom p
          (fun pd => { pd with children := pd.children.filter fun c => c ≠ id })
          fun nd => ⟨rfl, fun x hx => List.mem_of_mem_filter hx, fun _ hx => hx⟩)
        (shrinks_updateNode _ id (fun d => { d with parent := none })
          fun nd => ⟨rfl, fun _ hx => hx, fun _ hx => hx⟩)

theorem shrinks_remove (dom : Dom) (id : Nat) :
    Shrinks dom (remove_element dom id) := by
  unfold remove_element
  split
  · exact shrinks_detach dom id
  · exact shrinks_refl dom

theorem shrinks_blur (dom : Dom) (id : Nat) : Shrinks dom (handle_blur dom id) := by
  rcases handle_blur_cases dom id with h | h
  · rw [h]
    exact shrinks_refl dom
  · rw [h]
    exact shrinks_updateNode dom id _ fun nd => ⟨rfl, fun _ hx => hx, fun _ hx => hx⟩

theorem shrinks_z (dom : Dom) (id : Nat) :
    Shrinks dom (handle_z_index dom id).1 := by
  rcases handle_z_index_cases dom id with h | h
  · rw [h]
    exact shrinks_refl dom
  · rw [h]
    exact shrinks_remove dom id

theorem shrinks_examine (dom : Dom) (id : Nat) :
    Shrinks dom (examine_and_handle_element dom id).1 := by
  cases hg : getNode dom id with
  | none =>
    rw [show (examine_and_handle_element dom id).1 = dom by
      simp [examine_and_handle_element, hg]]
    exact shrinks_refl dom
  | some nd =>
    by_cases hguard : (!nd.isHTML || excluded_elements.contains nd.tag) = true
    · rw [show (examine_and_handle_element dom id).1 = dom by
        simp only [examine_and_handle_element, hg, hguard, if_true]]
      exact shrinks_refl dom
    · rw [examine_unfold dom id nd hg (eq_false_of_ne_true hguard)]
      show Shrinks dom (handle_z_index (handle_blur dom id) id).1
      exact shrinks_trans (shrinks_blur dom id) (shrinks_z (handle_blur dom id) id)

/-- The ids the walker may legitimately reach from `root` in a document:
chains of child/shadow links every one of whose targets exists and carries a
non-excluded tag. -/
inductive WalkReach (dom : Dom) (root : Nat) : Nat → Prop
  | root : WalkReach dom root root
  | step (p c : Nat) (pnd cnd : NodeData) : WalkReach dom root p →
      getNode dom p = some pnd → (c ∈ pnd.children ∨ c ∈ pnd.shadow) →
      getNode dom c = some cnd →
      excluded_elements.contains cnd.tag = false →
      WalkReach dom root c

/-- Induction core for the exclusion invariant: from any activation of the
walker on a document that shrinks the initial one, the final document still
shrinks it, and every classified id exists in the initial document with a
non-excluded tag and is reachable there through non-excluded nodes only. -/
theorem walkGo_trace (dom0 : Dom) (root : Nat) :
    ∀ fuel call dom, Shrinks dom0 dom →
      (match call with
       | WalkCall.node id => WalkReach dom0 root id
       | WalkCall.loop pid _ _ => WalkReach dom0 root pid) →
      Shrinks dom0 (walkGo fuel call dom).1 ∧
      ∀ x ∈ (walkGo fuel call dom).2,
        ∃ nd, getNode dom0 x = some nd ∧
          excluded_elements.contains nd.tag = false ∧ WalkReach dom0 root x := by
  intro fuel
  induction fuel with
  | zero =>
    intro call dom hS _
    refine ⟨hS, ?_⟩
    intro x hx
    simp [walkGo] at hx
  | succ f ih =>
    intro call dom hS hr
    cases call with
    | node id =>
      have h1 := ih (WalkCall.loop id false 0) dom hS hr
      have h2 := ih (WalkCall.loop id true 0)
        (walkGo f (WalkCall.loop id false 0) dom).1 h1.1 hr
      refine ⟨h2.1, ?_⟩
      intro x hx
      have hx' : x ∈ (walkGo f (WalkCall.loop id false 0) dom).2 ++
          (walkGo f (WalkCall.loop id true 0)
            (walkGo f (WalkCall.loop id false 0) dom).1).2 := hx
      rcases List.mem_append.mp hx' with h | h
      · exact h1.2 x h
      · exact h2.2 x h
    | loop pid sh i =>
      cases hp : getNode dom pid with
      | none =>
        have hw : walkGo (f + 1) (WalkCall.loop pid sh i) dom = (dom, []) := by
          simp [walkGo, hp]
        rw [hw]
        refine ⟨hS, ?_⟩
        intro x hx
        simp at hx
      | some pnd =>
        cases hk : (if sh then pnd.shadow else pnd.children)[i]? with
        | none =>
          have hw : walkGo (f + 1) (WalkCall.loop pid sh i) dom = (dom, []) := by
            simp [walkGo, hp, hk]
          rw [hw]
          refine ⟨hS, ?_⟩
          intro x hx
          simp at hx
        | some c =>
          have hcmem : c ∈ (if sh then pnd.shadow else pnd.children) :=
            List.getElem?_mem hk
          cases hc : getNode dom c with
          | none =>
            have hw : walkGo (f + 1) (WalkCall.loop pid sh i) dom =
                walkGo f (WalkCall.loop pid sh (i + 1)) dom := by
              simp [walkGo, hp, hk, hc]
            rw [hw]
            exact ih (WalkCall.loop pid sh (i + 1)) dom hS hr
          | some cnd =>
            by_cases ht : excluded_elements.contains cnd.tag = true
            · have ht2 : cnd.tag ∈ excluded_elements := by simpa using ht
              have hw : walkGo (f + 1) (WalkCall.loop pid sh i) dom =
                  walkGo f (WalkCall.loop pid sh (i + 1)) dom := by
                simp [walkGo, hp, hk, hc, ht2]
              rw [hw]
              exact ih (WalkCall.loop pid sh (i + 1)) dom hS hr
            · have htf := eq_false_of_ne_true ht
              have ht2 : ¬cnd.tag ∈ excluded_elements := by simpa using ht
              obtain ⟨pnd0, hp0, -, hch0, hsh0⟩ := hS pid pnd hp
              obtain ⟨cnd0, hc0, htagc, -, -⟩ := hS c cnd hc
              have hcmem0 : c ∈ pnd0.children ∨ c ∈ pnd0.shadow := by
                cases sh with
                | false =>
                  simp only [if_neg Bool.false_ne_true] at hcmem
                  exact Or.inl (hch0 c hcmem)
                | true =>
                  simp only [if_pos rfl] at hcmem
                  exact Or.inr (hsh0 c hcmem)
              have htagc0 : excluded_elements.contains cnd0.tag = false :=
                htagc ▸ htf
              have hreach : WalkReach dom0 root c :=
                WalkReach.step pid c pnd0 cnd0 hr hp0 hcmem0 hc0 htagc0
              have hrem : (examine_and_handle_element dom c).2 ≠ some "removed" := by
                rw [examine_snd_none]
                exact Option.noConfusion
              have hSe : Shrinks dom0 (examine_and_handle_element dom c).1 :=
                shrinks_trans hS (shrinks_examine dom c)
              have hs := ih (WalkCall.node c)
                (examine_and_handle_element dom c).1 hSe hreach
              have hrest := ih (WalkCall.loop pid sh (i + 1))
                (walkGo f (WalkCall.node c)
                  (examine_and_handle_element dom c).1).1 hs.1 hr
              have hw : walkGo (f + 1) (WalkCall.loop pid sh i) dom =
                  ((walkGo f (WalkCall.loop pid sh (i + 1))
                      (walkGo f (WalkCall.node c)
                        (examine_and_handle_element dom c).1).1).1,
                    c :: ((walkGo f (WalkCall.node c)
                        (examine_and_handle_element dom c).1).2 ++
                      (walkGo f (WalkCall.loop pid sh (i + 1))
                        (walkGo f (WalkCall.node c)
                          (examine_and_handle_element dom c).1).1).2)) := by
                simp [walkGo, hp, hk, hc, ht2, hrem]
              rw [hw]
              refine ⟨hrest.1, ?_⟩
              intro x hx
              rcases List.mem_cons.mp hx with rfl | hx'
              · exact ⟨cnd0, hc0, htagc0, hreach⟩
              · rcases List.mem_append.mp hx' with h | h
                · exact hs.2 x h
                · exact hrest.2 x h

/-- C8: (a) the Element Classifier, handed an element whose tag is in the
"excluded from any annoyance handling" set, changes nothing and signals
nothing; (b) every id the Tree Walker ever classifies (over any document,
any root, any fuel) exists in the initial document with a **non-excluded**
tag and is `WalkReach`-able there: reachable from the root through
child/shadow links that pass only non-excluded tags.  Consequently an
excluded element is never classified, and in a document where some node is
separated from the root by an excluded element, that node is never
classified either — the excluded subtree is skipped entirely. -/
theorem claim_C8 :
    (∀ dom id nd, getNode dom id = some nd →
      excluded_elements.contains nd.tag = true →
      examine_and_handle_element dom id = (dom, none)) ∧
    (∀ fuel dom root x, x ∈ (examine_dom fuel dom root).2 →
      ∃ nd, getNode dom x = some nd ∧
        excluded_elements.contains nd.tag = false ∧ WalkReach dom root x) := by
  constructor
  · intro dom id nd hg ht
    have ht2 : nd.tag ∈ excluded_elements := by simpa using ht
    simp [examine_and_handle_element, hg, ht2]
  · intro fuel dom root x hx
    exact (walkGo_trace dom root fuel (WalkCall.node root) dom
      (shrinks_refl dom) WalkReach.root).2 x hx

/-- A fixture with an excluded element in the middle: `body → p#2 → div#3`. -/
def c8dom : Dom :=
  [(0, { tag := "HTML", children := [1] }),
   (1, { tag := "BODY", parent := some 0, children := [2] }),
   (2, { tag := "P", parent := some 1, children := [3] }),
   (3, { tag := "DIV", parent := some 2, filter := "blur(2px)" })]

/-- Witness for C8 at concrete inputs: the classifier is inert on the
excluded `p#2` of `c8dom`, and the id `2` classified by the walk of `c2dom`
is a non-excluded, reachable node there. -/
theorem claim_C8_witness :
    examine_and_handle_element c8dom 2 = (c8dom, none) ∧
    ∃ nd, getNode c2dom 2 = some nd ∧
      excluded_elements.contains nd.tag = false ∧ WalkReach c2dom bodyId 2 :=
  ⟨claim_C8.1 c8dom 2 { tag := "P", parent := some 1, children := [3] }
      (by decide) (by decide),
    claim_C8.2 10 c2dom bodyId 2 (by decide)⟩

end WebRestorer
